import Mathlib

/-!
# Verification of the `TransactionSyncStreamWorker` of `wallet-lib`

Shallow embedding of `src/plugins/Workers/TransactionSyncStreamWorker/
TransactionSyncStreamWorker.js` and proofs about its behaviour.

The embedding models:
* the static pure matcher `filterWalletTransactions`;
* the worker lifecycle hooks `onStart`, `execute`, `onStop` as explicit
  state-and-event-trace transformers (the asynchronous collaborators
  `startHistoricalSync`, `startIncomingSync` and the transport are opaque
  parameters; calling them is recorded as an event in the trace);
* the constructor's option merging (`{defaults, ...options}`).
-/

namespace WalletLib

/-- A locking/signature script.  All the matcher uses of a script is
`script.toAddress(network).toString()`; we model a script by that
resolution function from the network name to the rendered address string
(for scripts that do not resolve to an address, dashcore-lib returns
`false`, whose rendering is the string "false" — also just a string). -/
structure Script where
  toAddress : String → String

/-- A transaction input.  `script` is the signature script; it is absent
(`none`) for coinbase inputs, which the JS code guards with
`if (input.script)`. -/
structure Input where
  script : Option Script

/-- A transaction output.  `script` is the locking script; the JS code
dereferences it unconditionally (`output.script.toAddress(...)`), so an
absent script makes the code throw. -/
structure Output where
  script : Option Script

/-- A transaction: ordered lists of inputs and outputs. -/
structure Transaction where
  inputs : List Input
  outputs : List Output

/-- The record returned by `filterWalletTransactions`. -/
structure FilterResult where
  transactions : List Transaction
  spentOutputs : List Input
  unspentOutputs : List Output

/-- The `tx.inputs.forEach` loop of `filterWalletTransactions`: skip an
input without a script; otherwise resolve its address and, when the
address list includes it, push the input onto `spentOutputs` and set
`isWalletTransaction`.  Returns the pushed inputs (in push order) and the
final flag contribution. -/
def processInputs (addressList : List String) (network : String) :
    List Input → List Input × Bool
  | [] => ([], false)
  | input :: rest =>
    match input.script with
    | some script =>
      let addr := script.toAddress network
      if addressList.contains addr then
        let r := processInputs addressList network rest
        (input :: r.1, true)
      else
        processInputs addressList network rest
    | none => processInputs addressList network rest

/-- The `tx.outputs.forEach` loop of `filterWalletTransactions`:
`output.script.toAddress(network)` is evaluated unconditionally, so an
output without a script makes the whole call throw (modelled as `none`);
otherwise matched outputs are pushed onto `unspentOutputs`. -/
def processOutputs (addressList : List String) (network : String) :
    List Output → Option (List Output × Bool)
  | [] => some ([], false)
  | output :: rest =>
    match output.script with
    | none => none
    | some script =>
      let addr := script.toAddress network
      match processOutputs addressList network rest with
      | none => none
      | some r =>
        if addressList.contains addr then
          some (output :: r.1, true)
        else
          some r

/-- `TransactionSyncStreamWorker.filterWalletTransactions`: filter the
transaction list, keeping a transaction iff one of its inputs or outputs
resolves to an address in `addressList`, while accumulating the matched
inputs (`spentOutputs`) and matched outputs (`unspentOutputs`).  A thrown
`TypeError` (output without a script) is modelled as `none`. -/
def filterWalletTransactions :
    List Transaction → List String → String → Option FilterResult
  | [], _, _ => some ⟨[], [], []⟩
  | tx :: rest, addressList, network =>
    let pin := processInputs addressList network tx.inputs
    match processOutputs addressList network tx.outputs with
    | none => none
    | some pout =>
      match filterWalletTransactions rest addressList network with
      | none => none
      | some r =>
        some ⟨if pin.2 || pout.2 then tx :: r.transactions else r.transactions,
              pin.1 ++ r.spentOutputs,
              pout.1 ++ r.unspentOutputs⟩

/-- Specification-level predicate: an input is wallet-owned when it has a
signature script resolving to an address in the list. -/
def inputMatches (addressList : List String) (network : String)
    (input : Input) : Bool :=
  match input.script with
  | some script => addressList.contains (script.toAddress network)
  | none => false

/-- Specification-level predicate: an output is wallet-owned when its
locking script resolves to an address in the list. -/
def outputMatches (addressList : List String) (network : String)
    (output : Output) : Bool :=
  match output.script with
  | some script => addressList.contains (script.toAddress network)
  | none => false

/-- Specification-level predicate: a transaction is a wallet transaction
iff at least one input or output matches. -/
def isWalletTransaction (addressList : List String) (network : String)
    (tx : Transaction) : Bool :=
  tx.inputs.any (inputMatches addressList network) ||
    tx.outputs.any (outputMatches addressList network)

/-- Every output of the transaction carries a locking script (the
precondition under which the matcher cannot throw). -/
def txHasAllOutputScripts (tx : Transaction) : Bool :=
  tx.outputs.all (fun output => output.script.isSome)

theorem processInputs_eq (addressList : List String) (network : String)
    (l : List Input) :
    processInputs addressList network l =
      (l.filter (inputMatches addressList network),
       l.any (inputMatches addressList network)) := by
  induction l with
  | nil => rfl
  | cons input rest ih =>
    cases h : input.script with
    | none =>
      simp [processInputs, h, ih, inputMatches]
    | some script =>
      by_cases hc : script.toAddress network ∈ addressList
      · simp [processInputs, h, hc, ih, inputMatches]
      · simp [processInputs, h, hc, ih, inputMatches]

theorem processOutputs_eq (addressList : List String) (network : String)
    (l : List Output) :
    processOutputs addressList network l =
      (if l.all (fun output => output.script.isSome) then
        some (l.filter (outputMatches addressList network),
              l.any (outputMatches addressList network))
      else none) := by
  induction l with
  | nil => rfl
  | cons output rest ih =>
    cases h : output.script with
    | none =>
      simp [processOutputs, h]
    | some script =>
      by_cases hall : rest.all (fun output => output.script.isSome) = true
      · by_cases hc : script.toAddress network ∈ addressList
        · simp [processOutputs, h, hc, ih, hall, outputMatches]
        · simp [processOutputs, h, hc, ih, hall, outputMatches]
      · simp only [Bool.not_eq_true] at hall
        simp [processOutputs, h, ih, hall, outputMatches]

/-- Master characterisation of `filterWalletTransactions`: it succeeds iff
every output of every transaction has a script, and on success it returns
the filtered transactions together with the flattened lists of matched
inputs and matched outputs. -/
theorem filterWalletTransactions_spec (T : List Transaction)
    (addressList : List String) (network : String) :
    filterWalletTransactions T addressList network =
      (if T.all txHasAllOutputScripts then
        some ⟨T.filter (isWalletTransaction addressList network),
              T.flatMap (fun tx =>
                tx.inputs.filter (inputMatches addressList network)),
              T.flatMap (fun tx =>
                tx.outputs.filter (outputMatches addressList network))⟩
      else none) := by
  induction T with
  | nil => rfl
  | cons tx rest ih =>
    simp only [filterWalletTransactions, processInputs_eq, processOutputs_eq, ih]
    by_cases htx : (tx.outputs.all fun output => output.script.isSome) = true
    · by_cases hall : rest.all txHasAllOutputScripts = true
      · have hcond : (tx :: rest).all txHasAllOutputScripts = true := by
          simp only [List.all_cons, txHasAllOutputScripts, Bool.and_eq_true]
          exact ⟨htx, hall⟩
        rw [if_pos htx, if_pos hall, if_pos hcond]
        simp only [List.filter_cons, List.flatMap_cons, isWalletTransaction]
      · have hcond : ¬((tx :: rest).all txHasAllOutputScripts = true) := by
          simp only [List.all_cons, txHasAllOutputScripts, Bool.and_eq_true]
          intro h
          exact hall h.2
        rw [if_pos htx, if_neg hall, if_neg hcond]
    · by_cases hall : rest.all txHasAllOutputScripts = true
      · have hcond : ¬((tx :: rest).all txHasAllOutputScripts = true) := by
          simp only [List.all_cons, txHasAllOutputScripts, Bool.and_eq_true]
          intro h
          exact htx h.1
        rw [if_neg htx, if_neg hcond]
      · have hcond : ¬((tx :: rest).all txHasAllOutputScripts = true) := by
          simp only [List.all_cons, txHasAllOutputScripts, Bool.and_eq_true]
          intro h
          exact htx h.1
        rw [if_neg htx, if_neg hcond]

/-!
## Operational run of the matcher with explicit argument state

To state that `filterWalletTransactions` neither mutates its arguments nor
depends on anything but them, we re-run the JS code threading an explicit
environment holding the caller's `transactions` and `addressList` arrays
through every step; the run returns the environment it leaves behind.
-/

/-- The caller-visible mutable state of a `filterWalletTransactions`
call: the argument arrays. -/
structure MatcherEnv where
  transactions : List Transaction
  addressList : List String

/-- The inputs loop, threading the environment through each
`addressList.includes` read. -/
def runInputs (env : MatcherEnv) (network : String) :
    List Input → MatcherEnv × (List Input × Bool)
  | [] => (env, ([], false))
  | input :: rest =>
    match input.script with
    | some script =>
      let addr := script.toAddress network
      if env.addressList.contains addr then
        let r := runInputs env network rest
        (r.1, (input :: r.2.1, true))
      else
        runInputs env network rest
    | none => runInputs env network rest

/-- The outputs loop, threading the environment. -/
def runOutputs (env : MatcherEnv) (network : String) :
    List Output → MatcherEnv × Option (List Output × Bool)
  | [] => (env, some ([], false))
  | output :: rest =>
    match output.script with
    | none => (env, none)
    | some script =>
      let addr := script.toAddress network
      match runOutputs env network rest with
      | (env1, none) => (env1, none)
      | (env1, some r) =>
        if env1.addressList.contains addr then
          (env1, some (output :: r.1, true))
        else
          (env1, some r)

/-- The outer `transactions.filter` loop, threading the environment. -/
def runFilterAux (env : MatcherEnv) (network : String) :
    List Transaction → MatcherEnv × Option FilterResult
  | [] => (env, some ⟨[], [], []⟩)
  | tx :: rest =>
    let pin := runInputs env network tx.inputs
    match runOutputs pin.1 network tx.outputs with
    | (env1, none) => (env1, none)
    | (env1, some pout) =>
      match runFilterAux env1 network rest with
      | (env2, none) => (env2, none)
      | (env2, some r) =>
        (env2,
         some ⟨if pin.2.2 || pout.2 then tx :: r.transactions else r.transactions,
               pin.2.1 ++ r.spentOutputs,
               pout.1 ++ r.unspentOutputs⟩)

/-- An entire `filterWalletTransactions` call as a state transformer on
the caller's argument arrays. -/
def filterWalletTransactionsRun (env : MatcherEnv) (network : String) :
    MatcherEnv × Option FilterResult :=
  runFilterAux env network env.transactions

theorem runInputs_eq (env : MatcherEnv) (network : String) (l : List Input) :
    runInputs env network l = (env, processInputs env.addressList network l) := by
  induction l with
  | nil => rfl
  | cons input rest ih =>
    cases h : input.script with
    | none => simp [runInputs, processInputs, h, ih]
    | some script =>
      by_cases hc : script.toAddress network ∈ env.addressList
      · simp [runInputs, processInputs, h, hc, ih]
      · simp [runInputs, processInputs, h, hc, ih]

theorem runOutputs_eq (env : MatcherEnv) (network : String) (l : List Output) :
    runOutputs env network l = (env, processOutputs env.addressList network l) := by
  induction l with
  | nil => rfl
  | cons output rest ih =>
    cases h : output.script with
    | none => simp [runOutputs, processOutputs, h]
    | some script =>
      cases hro : processOutputs env.addressList network rest with
      | none => simp [runOutputs, processOutputs, h, ih, hro]
      | some r =>
        by_cases hc : script.toAddress network ∈ env.addressList
        · simp [runOutputs, processOutputs, h, ih, hro, hc]
        · simp [runOutputs, processOutputs, h, ih, hro, hc]

theorem runFilterAux_eq (env : MatcherEnv) (network : String)
    (T : List Transaction) :
    runFilterAux env network T =
      (env, filterWalletTransactions T env.addressList network) := by
  induction T with
  | nil => rfl
  | cons tx rest ih =>
    cases hpo : processOutputs env.addressList network tx.outputs with
    | none =>
      simp [runFilterAux, filterWalletTransactions, runInputs_eq,
        runOutputs_eq, hpo]
    | some pout =>
      cases hfr : filterWalletTransactions rest env.addressList network with
      | none =>
        simp [runFilterAux, filterWalletTransactions, runInputs_eq,
          runOutputs_eq, hpo, ih, hfr]
      | some r =>
        simp [runFilterAux, filterWalletTransactions, runInputs_eq,
          runOutputs_eq, hpo, ih, hfr]

/-!
## Worker lifecycle model

`onStart`, `execute` and `onStop` are embedded as explicit state-and-trace
transformers.  Calls into the asynchronous collaborators
(`transport.getBlockHeaderByHeight`, `startHistoricalSync`,
`startIncomingSync`, `stream.cancel`) and the checkpoint writes are
recorded as events, in the order the JS code performs them.
-/

/-- A block header as returned by `transport.getBlockHeaderByHeight`. -/
structure BlockHeader where
  hash : String
  height : Nat

/-- `storage.store.syncOptions` (the whole object may be absent). -/
structure SyncOptions where
  skipSynchronizationBeforeHeight : Option Nat

/-- Modelled from the spec: the Checkpoint Store contents reachable
through the `storage` collaborator — the persisted
`(lastSyncedBlockHeight, lastSyncedBlockHash)` pair of §6, the
`syncOptions` object read by `onStart`, and the rest of the persisted
wallet data (transactions), which the worker lifecycle hooks never
touch. -/
structure Store where
  syncOptions : Option SyncOptions
  lastSyncedBlockHeight : Option Nat
  lastSyncedBlockHash : Option String
  transactions : List Transaction

/-- The mutable instance state of a `TransactionSyncStreamWorker`:
the three fields assigned in the constructor, the `gapLimit` and
`network` dependencies, and the `storage` collaborator.  A live stream
handle and a pending promise are modelled as opaque identifiers. -/
structure WorkerState where
  syncIncomingTransactions : Bool
  stream : Option Nat
  incomingSyncPromise : Option Nat
  gapLimit : Nat
  network : String
  storage : Store

/-- Observable actions of the worker, recorded in call order. -/
inductive Event where
  | getBlockHeaderByHeight (height : Nat)
  | setLastSyncedBlockHeight (height : Nat)
  | setLastSyncedBlockHash (hash : String)
  | invokeStartHistoricalSync (network : String)
  | invokeStartIncomingSync
  | streamOpened
  | awaitPromise (promise : Nat)
  | cancelStream
  deriving DecidableEq, Repr

/-- Modelled from the spec: `setLastSyncedBlockHeight` lives in
`methods/setLastSyncedBlockHeight.js`, which is not part of the sources;
per §6 it persists the checkpoint height in the Checkpoint Store. -/
def setLastSyncedBlockHeight (s : WorkerState) (height : Nat) : WorkerState :=
  { s with storage := { s.storage with lastSyncedBlockHeight := some height } }

/-- Modelled from the spec: `setLastSyncedBlockHash` lives in
`methods/setLastSyncedBlockHash.js`, which is not part of the sources;
per §6 it persists the checkpoint hash in the Checkpoint Store. -/
def setLastSyncedBlockHash (s : WorkerState) (hash : String) : WorkerState :=
  { s with storage := { s.storage with lastSyncedBlockHash := some hash } }

/-- `TransactionSyncStreamWorker.onStart`.  `getBlockHeaderByHeight` is
the transport lookup; `histResult` is the outcome of the awaited
`startHistoricalSync` call (opaque to `onStart`, which does not catch
its errors).  Returns the state after the synchronous writes, the event
trace, and the overall outcome of the returned promise.  Note the JS
guard `if (skipSynchronizationBeforeHeight)` is a truthiness test: it
fails both for an absent option and for the number `0`. -/
def onStart (s : WorkerState) (getBlockHeaderByHeight : Nat → BlockHeader)
    (histResult : Except String Unit) :
    WorkerState × List Event × Except String Unit :=
  let syncOpts := s.storage.syncOptions.getD ⟨none⟩
  let step :=
    match syncOpts.skipSynchronizationBeforeHeight with
    | some height =>
      if height ≠ 0 then
        let header := getBlockHeaderByHeight height
        let s1 := setLastSyncedBlockHash (setLastSyncedBlockHeight s height)
          header.hash
        (s1, [Event.getBlockHeaderByHeight height,
              Event.setLastSyncedBlockHeight height,
              Event.setLastSyncedBlockHash header.hash])
      else (s, [])
    | none => (s, [])
  (step.1, step.2 ++ [Event.invokeStartHistoricalSync s.network], histResult)

/-- `TransactionSyncStreamWorker.execute`: set
`syncIncomingTransactions`, call `startIncomingSync` (whose pending
promise is `promise`) and store the promise without awaiting it. -/
def execute (s : WorkerState) (promise : Nat) : WorkerState × List Event :=
  ({ s with syncIncomingTransactions := true,
            incomingSyncPromise := some promise },
   [Event.invokeStartIncomingSync])

/-- `TransactionSyncStreamWorker.onStop`: clear
`syncIncomingTransactions`; when a stream handle is present, cancel it
and null the reference in the same synchronous step. -/
def onStop (s : WorkerState) : WorkerState × List Event :=
  let s1 := { s with syncIncomingTransactions := false }
  match s1.stream with
  | some _ => ({ s1 with stream := none }, [Event.cancelStream])
  | none => (s1, [])

/-!
## Constructor option merging

The constructor calls `super({name: ..., executeOnStart: true,
firstExecutionRequired: true, workerIntervalTime: 0, gapLimit: 10,
dependencies: [...], ...options})`: the object spread lets any key
present in `options` override the literal defaults.
-/

/-- The constructor options relevant to the defaulted scalar keys; a
`none` field models a key absent from the caller's `options` object. -/
structure Options where
  name : Option String
  executeOnStart : Option Bool
  firstExecutionRequired : Option Bool
  workerIntervalTime : Option Nat
  gapLimit : Option Nat

/-- The merged configuration object passed to `super`. -/
structure WorkerConfig where
  name : String
  executeOnStart : Bool
  firstExecutionRequired : Bool
  workerIntervalTime : Nat
  gapLimit : Nat

/-- The `{defaults, ...options}` merge performed by the constructor. -/
def constructorConfig (options : Options) : WorkerConfig :=
  { name := options.name.getD "TransactionSyncStreamWorker",
    executeOnStart := options.executeOnStart.getD true,
    firstExecutionRequired := options.firstExecutionRequired.getD true,
    workerIntervalTime := options.workerIntervalTime.getD 0,
    gapLimit := options.gapLimit.getD 10 }

/-!
## Concrete sample data for witnesses
-/

/-- A script resolving to the same address on every network. -/
def scriptTo (addr : String) : Script := ⟨fun _ => addr⟩

/-- A transaction spending from `addrA` into `addrB`. -/
def txSpend : Transaction :=
  ⟨[⟨some (scriptTo "addrA")⟩], [⟨some (scriptTo "addrB")⟩]⟩

/-- A transaction with one coinbase (scriptless) input and an output to
the foreign address `addrC`. -/
def txOther : Transaction :=
  ⟨[⟨none⟩], [⟨some (scriptTo "addrC")⟩]⟩

/-- A transaction whose only output carries no locking script. -/
def txNoOutScript : Transaction := ⟨[], [⟨none⟩]⟩

/-!
## Claims
-/

/-- C1: for every transaction list `T`, address list and network on which
the call does not throw (every output has a script, see C9),
`filterWalletTransactions` returns exactly the sublist of `T` whose
members have at least one input or output resolving to an address in the
list, and `spentOutputs` / `unspentOutputs` are exactly the matched
inputs / matched outputs — each matched occurrence exactly once (the
equality with the flattened filters leaves no room for duplicates). -/
theorem filterWalletTransactions_exact (T : List Transaction)
    (addressList : List String) (network : String)
    (h : ∀ tx ∈ T, txHasAllOutputScripts tx = true) :
    filterWalletTransactions T addressList network =
      some ⟨T.filter (isWalletTransaction addressList network),
            T.flatMap (fun tx =>
              tx.inputs.filter (inputMatches addressList network)),
            T.flatMap (fun tx =>
              tx.outputs.filter (outputMatches addressList network))⟩ := by
  have hb : T.all txHasAllOutputScripts = true := List.all_eq_true.mpr h
  rw [filterWalletTransactions_spec, if_pos hb]

/-- Witness for C1 on a concrete batch: `txSpend` is kept because its
input spends from the watched `addrA`; `txOther` is dropped. -/
theorem filterWalletTransactions_exact_witness :
    (∀ tx ∈ [txSpend, txOther], txHasAllOutputScripts tx = true) ∧
    filterWalletTransactions [txSpend, txOther] ["addrA"] "testnet" =
      some ⟨[txSpend], [⟨some (scriptTo "addrA")⟩], []⟩ :=
  ⟨by decide,
   filterWalletTransactions_exact [txSpend, txOther] ["addrA"] "testnet"
     (by decide)⟩

/-- C5: `filterWalletTransactions` is pure and deterministic.  Re-running
the code as an explicit state transformer on its argument arrays
(`filterWalletTransactionsRun`) returns the argument state unchanged, and
its answer coincides with the pure function of the three arguments — so
two runs on the same arguments give the same result and no external state
is read or written. -/
theorem filterWalletTransactions_pure_deterministic (env : MatcherEnv)
    (network : String) :
    filterWalletTransactionsRun env network =
      (env, filterWalletTransactions env.transactions env.addressList network) := by
  rw [filterWalletTransactionsRun, runFilterAux_eq]

/-- C8: an input without a signature script (e.g. a coinbase input) is
skipped by the `if (input.script)` guard: the call still succeeds, the
input is never classified as wallet-owned, and a transaction whose inputs
are all scriptless is retained only if one of its outputs matches. -/
theorem coinbase_input_skipped (T : List Transaction)
    (addressList : List String) (network : String) (tx : Transaction)
    (hall : ∀ t ∈ T, txHasAllOutputScripts t = true)
    (hmem : tx ∈ T)
    (hscriptless : ∀ i ∈ tx.inputs, i.script = none)
    (hout : ∀ o ∈ tx.outputs, outputMatches addressList network o = false) :
    (filterWalletTransactions T addressList network).isSome = true ∧
    (∀ i ∈ tx.inputs, inputMatches addressList network i = false) ∧
    ∀ r, filterWalletTransactions T addressList network = some r →
      tx ∉ r.transactions := by
  have hb : T.all txHasAllOutputScripts = true := List.all_eq_true.mpr hall
  have hin : ∀ i ∈ tx.inputs, inputMatches addressList network i = false := by
    intro i hi
    simp [inputMatches, hscriptless i hi]
  have hwt : isWalletTransaction addressList network tx = false := by
    rw [isWalletTransaction, Bool.or_eq_false_iff]
    constructor
    · rw [List.any_eq_false]
      intro i hi
      simp [hin i hi]
    · rw [List.any_eq_false]
      intro o ho
      simp [hout o ho]
  refine ⟨?_, hin, ?_⟩
  · rw [filterWalletTransactions_spec, if_pos hb]
    rfl
  · intro r hr
    rw [filterWalletTransactions_spec, if_pos hb] at hr
    cases hr
    intro hmemf
    have hpt := (List.mem_filter.mp hmemf).2
    rw [hwt] at hpt
    cases hpt

/-- Witness for C8: `txOther` has one coinbase input and one output to a
foreign address; filtering succeeds and drops `txOther`. -/
theorem coinbase_input_skipped_witness :
    (∀ t ∈ [txOther], txHasAllOutputScripts t = true) ∧
    txOther ∈ [txOther] ∧
    (∀ i ∈ txOther.inputs, i.script = none) ∧
    (∀ o ∈ txOther.outputs, outputMatches ["addrA"] "testnet" o = false) ∧
    ((filterWalletTransactions [txOther] ["addrA"] "testnet").isSome = true ∧
     (∀ i ∈ txOther.inputs, inputMatches ["addrA"] "testnet" i = false) ∧
     ∀ r, filterWalletTransactions [txOther] ["addrA"] "testnet" = some r →
       txOther ∉ r.transactions) :=
  have hs : ∀ i ∈ txOther.inputs, i.script = none := by
    intro i hi
    simp only [txOther, List.mem_singleton] at hi
    rw [hi]
  ⟨by decide, List.mem_singleton.mpr rfl, hs, by decide,
   coinbase_input_skipped [txOther] ["addrA"] "testnet" txOther
     (by decide) (List.mem_singleton.mpr rfl) hs (by decide)⟩

/-- C9: outputs are dereferenced without a missing-script guard: on the
concrete transaction `txNoOutScript` the call throws (modelled `none`),
and in general the call returns a result exactly when every output of
every transaction carries a script. -/
theorem output_script_unguarded :
    filterWalletTransactions [txNoOutScript] [] "mainnet" = none ∧
    ∀ (T : List Transaction) (addressList : List String) (network : String),
      (filterWalletTransactions T addressList network).isSome =
        T.all txHasAllOutputScripts := by
  constructor
  · rfl
  · intro T addressList network
    rw [filterWalletTransactions_spec]
    by_cases hb : T.all txHasAllOutputScripts = true
    · rw [if_pos hb, hb]
      rfl
    · rw [if_neg hb, Bool.eq_false_iff.mpr hb]
      rfl

/-- A worker state whose sync options request skipping before height 0:
the option is present, yet the JS truthiness guard
`if (skipSynchronizationBeforeHeight)` rejects the number `0`. -/
def zeroSkipState : WorkerState :=
  { syncIncomingTransactions := false
    stream := none
    incomingSyncPromise := none
    gapLimit := 10
    network := "testnet"
    storage :=
      { syncOptions := some ⟨some 0⟩
        lastSyncedBlockHeight := none
        lastSyncedBlockHash := none
        transactions := [] } }

/-- A worker state with `skipSynchronizationBeforeHeight = 458971`, the
end-to-end scenario of the spec. -/
def skipState : WorkerState :=
  { syncIncomingTransactions := false
    stream := none
    incomingSyncPromise := none
    gapLimit := 10
    network := "testnet"
    storage :=
      { syncOptions := some ⟨some 458971⟩
        lastSyncedBlockHeight := none
        lastSyncedBlockHash := none
        transactions := [] } }

/-- A block-header lookup answering with the hash of the spec's
end-to-end scenario at every height. -/
def mockHeaderLookup : Nat → BlockHeader :=
  fun height =>
    ⟨"00000072edc9e031ff7aa3eb529511538c8a4899d5befea28848578e06c73313",
     height⟩

/-- C2 counterexample: with `skipSynchronizationBeforeHeight` set to `0`
the option is present, but `onStart` performs no checkpoint write at all
— the claim's unconditional "if set" fails on the code, whose truthiness
guard `if (skipSynchronizationBeforeHeight)` is false for `0`. -/
theorem onStart_skipHeight_zero_counterexample :
    (zeroSkipState.storage.syncOptions.getD
      ⟨none⟩).skipSynchronizationBeforeHeight = some 0 ∧
    (onStart zeroSkipState mockHeaderLookup
      (Except.ok ())).1.storage.lastSyncedBlockHeight = none ∧
    Event.setLastSyncedBlockHeight 0 ∉
      (onStart zeroSkipState mockHeaderLookup (Except.ok ())).2.1 := by
  refine ⟨rfl, rfl, ?_⟩
  decide

/-- C2 (amended): if `skipSynchronizationBeforeHeight` is set to a
nonzero height, `onStart` writes the checkpoint height to that height and
the checkpoint hash to the hash looked up via `getBlockHeaderByHeight`,
and the whole event trace is the header lookup followed by the two
checkpoint writes followed by the `startHistoricalSync` invocation — so
both writes happen before Historical Sync starts and no stream-opening
action precedes them. -/
theorem onStart_skipHeight_fast_forwards (s : WorkerState)
    (lookup : Nat → BlockHeader) (histResult : Except String Unit)
    (height : Nat)
    (hset : (s.storage.syncOptions.getD
      ⟨none⟩).skipSynchronizationBeforeHeight = some height)
    (hnz : height ≠ 0) :
    (onStart s lookup histResult).1.storage.lastSyncedBlockHeight
        = some height ∧
    (onStart s lookup histResult).1.storage.lastSyncedBlockHash
        = some (lookup height).hash ∧
    (onStart s lookup histResult).2.1 =
      [Event.getBlockHeaderByHeight height,
       Event.setLastSyncedBlockHeight height,
       Event.setLastSyncedBlockHash (lookup height).hash,
       Event.invokeStartHistoricalSync s.network] := by
  refine ⟨?_, ?_, ?_⟩ <;>
    simp [onStart, hset, hnz, setLastSyncedBlockHeight, setLastSyncedBlockHash]

/-- Witness for C2 on the spec's end-to-end scenario
(`skipSynchronizationBeforeHeight = 458971`). -/
theorem onStart_skipHeight_fast_forwards_witness :
    (skipState.storage.syncOptions.getD
      ⟨none⟩).skipSynchronizationBeforeHeight = some 458971 ∧
    (458971 ≠ 0) ∧
    ((onStart skipState mockHeaderLookup
        (Except.ok ())).1.storage.lastSyncedBlockHeight = some 458971 ∧
     (onStart skipState mockHeaderLookup
        (Except.ok ())).1.storage.lastSyncedBlockHash =
       some "00000072edc9e031ff7aa3eb529511538c8a4899d5befea28848578e06c73313" ∧
     (onStart skipState mockHeaderLookup (Except.ok ())).2.1 =
       [Event.getBlockHeaderByHeight 458971,
        Event.setLastSyncedBlockHeight 458971,
        Event.setLastSyncedBlockHash
          "00000072edc9e031ff7aa3eb529511538c8a4899d5befea28848578e06c73313",
        Event.invokeStartHistoricalSync "testnet"]) :=
  ⟨rfl, by decide,
   onStart_skipHeight_fast_forwards skipState mockHeaderLookup
     (Except.ok ()) 458971 rfl (by decide)⟩

/-- C3: `onStop` clears `syncIncomingTransactions`; when a live stream
handle is present it cancels it exactly once, nulling the handle
reference in the same synchronous step (so the resulting stream-ended
event finds no handle and is treated as intentional shutdown); when no
stream is present, `cancel` is never called. -/
theorem onStop_cancels_stream_once (s : WorkerState) :
    (onStop s).1.syncIncomingTransactions = false ∧
    (onStop s).1.stream = none ∧
    (onStop s).2 = (if s.stream.isSome then [Event.cancelStream] else []) := by
  cases h : s.stream with
  | none => simp [onStop, h]
  | some handle => simp [onStop, h]

/-- C4: `onStart` awaits `startHistoricalSync` with no surrounding
try/catch, so a Historical Sync failure is the failure of `onStart`
itself: the invocation happens, and the error comes back to the caller of
startup unchanged. -/
theorem onStart_propagates_historical_sync_failure (s : WorkerState)
    (lookup : Nat → BlockHeader) (e : String) :
    (onStart s lookup (Except.error e)).2.2 = Except.error e ∧
    Event.invokeStartHistoricalSync s.network ∈
      (onStart s lookup (Except.error e)).2.1 := by
  refine ⟨rfl, ?_⟩
  simp [onStart]

/-- C6: the constructor merges `{..., gapLimit: 10, ...options}`: with no
`gapLimit` in the options the merged configuration carries the default
`10`, and a supplied `gapLimit` overrides it. -/
theorem constructorConfig_gapLimit_default (options : Options) :
    (options.gapLimit = none → (constructorConfig options).gapLimit = 10) ∧
    ∀ g, options.gapLimit = some g → (constructorConfig options).gapLimit = g := by
  constructor
  · intro h
    simp [constructorConfig, h]
  · intro g h
    simp [constructorConfig, h]

/-- Witness for C6: the default and an override, evaluated. -/
theorem constructorConfig_gapLimit_default_witness :
    (constructorConfig ⟨none, none, none, none, none⟩).gapLimit = 10 ∧
    (constructorConfig ⟨none, none, none, none, some 25⟩).gapLimit = 25 :=
  ⟨(constructorConfig_gapLimit_default ⟨none, none, none, none, none⟩).1 rfl,
   (constructorConfig_gapLimit_default ⟨none, none, none, none, some 25⟩).2
     25 rfl⟩

/-- C7: `execute` sets `syncIncomingTransactions` to `true`, invokes
`startIncomingSync` and stores its pending promise in
`incomingSyncPromise`, and returns without awaiting any promise — the
worker's execution is never blocked on incoming-transaction syncing. -/
theorem execute_nonblocking_background_sync (s : WorkerState)
    (promise : Nat) :
    (execute s promise).1.syncIncomingTransactions = true ∧
    (execute s promise).1.incomingSyncPromise = some promise ∧
    Event.invokeStartIncomingSync ∈ (execute s promise).2 ∧
    ∀ q, Event.awaitPromise q ∉ (execute s promise).2 := by
  refine ⟨rfl, rfl, ?_, ?_⟩
  · simp [execute]
  · intro q
    simp [execute]

/-- C10: `onStop` is frame-bounded to `syncIncomingTransactions` and
`stream`: the pending promise, the worker configuration and the whole
persisted storage — in particular the checkpoint height and hash — are
unchanged for every starting state. -/
theorem onStop_frame (s : WorkerState) :
    (onStop s).1.incomingSyncPromise = s.incomingSyncPromise ∧
    (onStop s).1.gapLimit = s.gapLimit ∧
    (onStop s).1.network = s.network ∧
    (onStop s).1.storage = s.storage ∧
    (onStop s).1.storage.lastSyncedBlockHeight =
      s.storage.lastSyncedBlockHeight ∧
    (onStop s).1.storage.lastSyncedBlockHash = s.storage.lastSyncedBlockHash := by
  cases h : s.stream with
  | none => simp [onStop, h]
  | some handle => simp [onStop, h]

end WalletLib
